import Mathlib

/-!
Verification of the `timeslot` Home Assistant custom component
(`custom_components/timeslot/__init__.py`).

The component defines a single entity class `Timeslot` holding a name, an
enabled flag and two local times-of-day `start` / `end`.  Its state `is_on`
is true iff it is enabled and the current wall-clock time-of-day lies in the
`[start, end)` window, with wraparound semantics when `start > end`.  The
entity also supports `turn_on` / `turn_off` / `set_parameters` mutators and a
restore-on-start merge in `async_added_to_hass`.

This file is a shallow embedding of that code: each Python method becomes a
pure Lean function on an explicit entity state; the fallible restore step
returns `Except String Timeslot`, the error string standing for the Python
exception that propagates out of `async_added_to_hass`.
-/

/-- A local time-of-day, mirroring Python `datetime.time` restricted to
`hour:minute:second` (microseconds are never set by this component). -/
structure Time where
  hour : Nat
  minute : Nat
  second : Nat
  deriving DecidableEq, Repr

/-- Total seconds since midnight; Python `datetime.time` comparison on valid
times agrees with comparison of this value. -/
def Time.toSec (t : Time) : Nat :=
  t.hour * 3600 + t.minute * 60 + t.second

instance : LE Time := ⟨fun a b => a.toSec ≤ b.toSec⟩

instance : LT Time := ⟨fun a b => a.toSec < b.toSec⟩

instance (a b : Time) : Decidable (a ≤ b) :=
  inferInstanceAs (Decidable (a.toSec ≤ b.toSec))

instance (a b : Time) : Decidable (a < b) :=
  inferInstanceAs (Decidable (a.toSec < b.toSec))

/-- `time()` with no arguments in Python: midnight, the default for
`start` and `end`. -/
def Time.midnight : Time := ⟨0, 0, 0⟩

/-- Numeric value of a digit character. -/
def digitVal (c : Char) : Nat := c.toNat - 48

/-- `datetime.time.fromisoformat`, restricted to the round-trippable
`"HH:MM:SS"` text this component itself publishes via `isoformat()`.
Malformed text makes Python raise `ValueError`; here it yields `none`. -/
def Time.fromisoformat (s : String) : Option Time :=
  match s.toList with
  | [h1, h2, c1, m1, m2, c2, s1, s2] =>
    if h1.isDigit && h2.isDigit && (c1 == ':') && m1.isDigit && m2.isDigit
        && (c2 == ':') && s1.isDigit && s2.isDigit then
      let hour := digitVal h1 * 10 + digitVal h2
      let minute := digitVal m1 * 10 + digitVal m2
      let second := digitVal s1 * 10 + digitVal s2
      if hour < 24 ∧ minute < 60 ∧ second < 60 then
        some ⟨hour, minute, second⟩
      else
        none
    else
      none
  | _ => none

/-- The per-entity configuration mapping `{id, name?, enabled?, start?, end?}`
handed to `Timeslot.__init__` (times already parsed by `cv.time`, booleans by
`cv.boolean`; a key absent from the mapping is `none`, so
`config.get(k) is None` is `.isNone`). -/
structure Config where
  id : Option String
  name : Option String
  enabled : Option Bool
  start : Option Time
  «end» : Option Time
  deriving DecidableEq, Repr

/-- The mutable state of a `Timeslot` entity: the stored `_config` plus the
fields set in `__init__` (`editable`, `_attr_name`, `_attr_unique_id`,
`entity_id`, `_enabled`, `_start`, `_end`). -/
structure Timeslot where
  config : Config
  editable : Bool
  name : Option String
  uniqueId : Option String
  entityId : String
  enabled : Bool
  start : Time
  «end» : Time
  deriving DecidableEq, Repr

/-- `Timeslot.__init__(config)`: `editable = True`, name and unique id from
the config, `entity_id = f"timeslot.{id}"`, `enabled` defaults to `False`,
`start` and `end` default to `time()` (midnight). -/
def Timeslot.init (config : Config) : Timeslot :=
  { config := config
    editable := true
    name := config.name
    uniqueId := config.id
    entityId := "timeslot." ++ config.id.getD "None"
    enabled := config.enabled.getD false
    start := config.start.getD Time.midnight
    «end» := config.«end».getD Time.midnight }

/-- `Timeslot.is_on`: with `now = datetime.now().time()` made explicit,
`if self._start <= self._end: return self._enabled and self._start <= now and
now < self._end` else (night timeslot) `return self._enabled and
(self._start <= now or now < self._end)`. -/
def Timeslot.is_on (ts : Timeslot) (now : Time) : Bool :=
  if ts.start ≤ ts.«end» then
    ts.enabled && (decide (ts.start ≤ now) && decide (now < ts.«end»))
  else
    ts.enabled && (decide (ts.start ≤ now) || decide (now < ts.«end»))

/-- `Timeslot.turn_on`: `self._enabled = True`. -/
def Timeslot.turn_on (ts : Timeslot) : Timeslot :=
  { ts with enabled := true }

/-- `Timeslot.turn_off`: `self._enabled = False`. -/
def Timeslot.turn_off (ts : Timeslot) : Timeslot :=
  { ts with enabled := false }

/-- Modelled from the spec: `toggle()` is not implemented in
`custom_components/timeslot/__init__.py`; the `toggle` service is routed to
`async_toggle` inherited from the host framework's toggle-entity base class,
whose code is outside this repository.  The spec says: "`toggle()`: set
`enabled` to the logical negation of its current value." -/
def Timeslot.toggle (ts : Timeslot) : Timeslot :=
  { ts with enabled := !ts.enabled }

/-- `Timeslot.async_set_parameters(name?, enabled?, start?, end?)`: each
argument that is not `None` overwrites its field, then
`self.async_write_ha_state()` publishes the state once.  The second component
of the result is the list of published states (always exactly one). -/
def Timeslot.async_set_parameters (ts : Timeslot) (name : Option String)
    (enabled : Option Bool) (start : Option Time) («end» : Option Time) :
    Timeslot × List Timeslot :=
  let ts1 := match name with
    | some n => { ts with name := some n }
    | none => ts
  let ts2 := match enabled with
    | some b => { ts1 with enabled := b }
    | none => ts1
  let ts3 := match start with
    | some t => { ts2 with start := t }
    | none => ts2
  let ts4 := match «end» with
    | some t => { ts3 with «end» := t }
    | none => ts3
  (ts4, [ts4])

/-- The restore snapshot (`old_state.attributes`): the attribute dictionary of
the last published state.  A missing key makes the Python subscript raise
`KeyError`; here a missing key is `none`.  Times are stored in their
`isoformat()` text form. -/
structure Snapshot where
  enabled : Option Bool
  start : Option String
  «end» : Option String
  deriving DecidableEq, Repr

/-- Line `if self._config.get(ATTR_ENABLED) is None: self._enabled =
old_state.attributes[ATTR_ENABLED]` of `async_added_to_hass`. -/
def Timeslot.restoreEnabled (ts : Timeslot) (old : Snapshot) :
    Except String Timeslot :=
  match ts.config.enabled with
  | some _ => Except.ok ts
  | none =>
    match old.enabled with
    | some b => Except.ok { ts with enabled := b }
    | none => Except.error "KeyError: enabled"

/-- Line `if self._config.get(ATTR_START) is None: self._start =
time.fromisoformat(old_state.attributes[ATTR_START])` of
`async_added_to_hass`. -/
def Timeslot.restoreStart (ts : Timeslot) (old : Snapshot) :
    Except String Timeslot :=
  match ts.config.start with
  | some _ => Except.ok ts
  | none =>
    match old.start with
    | some s =>
      match Time.fromisoformat s with
      | some t => Except.ok { ts with start := t }
      | none => Except.error "ValueError: invalid isoformat string"
    | none => Except.error "KeyError: start"

/-- Line `if self._config.get(ATTR_END) is None: self._end =
time.fromisoformat(old_state.attributes[ATTR_END])` of
`async_added_to_hass`. -/
def Timeslot.restoreEnd (ts : Timeslot) (old : Snapshot) :
    Except String Timeslot :=
  match ts.config.«end» with
  | some _ => Except.ok ts
  | none =>
    match old.«end» with
    | some s =>
      match Time.fromisoformat s with
      | some t => Except.ok { ts with «end» := t }
      | none => Except.error "ValueError: invalid isoformat string"
    | none => Except.error "KeyError: end"

/-- `Timeslot.async_added_to_hass` (restore-merge part): if
`async_get_last_state()` returned a snapshot, each of `enabled`, `start`,
`end` whose key is absent from the stored `_config` is overwritten from the
snapshot, in that order; an exception aborts the remainder.  With no
snapshot the constructed fields stand. -/
def Timeslot.async_added_to_hass (ts : Timeslot) (old_state : Option Snapshot) :
    Except String Timeslot :=
  match old_state with
  | none => Except.ok ts
  | some old =>
    (ts.restoreEnabled old).bind fun t1 =>
      (t1.restoreStart old).bind fun t2 =>
        t2.restoreEnd old

/-- The spec's reference membership test, written from its words: false when
`enabled` is false; for `start <= end` active iff `start <= now < end`; for
`start > end` active iff `now >= start` or `now < end`. -/
def is_active_spec (enabled : Bool) (start «end» now : Time) : Bool :=
  if enabled = false then false
  else if start ≤ «end» then decide (start ≤ now) && decide (now < «end»)
  else decide (now ≥ start) || decide (now < «end»)

example : Time.fromisoformat "01:02:03" = some ⟨1, 2, 3⟩ := by decide

example : Time.fromisoformat "garbage!" = none := by decide

example : Time.fromisoformat "25:00:00" = none := by decide

/-- C1: the membership test `is_on` equals the reference definition: false
whenever `enabled` is false; for `start ≤ end` true iff enabled and
`start ≤ now < end`; for `start > end` true iff enabled and
(`now ≥ start` or `now < end`) — for every start, end, now. -/
theorem is_on_eq_is_active_spec (ts : Timeslot) (now : Time) :
    ts.is_on now = is_active_spec ts.enabled ts.start ts.«end» now := by
  unfold Timeslot.is_on is_active_spec
  cases h : ts.enabled <;> simp [h, GE.ge]

/-- C2: a window with `start = end` and `enabled = true` is never active:
`is_on` is false for every `now`. -/
theorem is_on_degenerate (ts : Timeslot) (now : Time)
    (hen : ts.enabled = true) (heq : ts.start = ts.«end») :
    ts.is_on now = false := by
  unfold Timeslot.is_on
  rw [← heq]
  have hle : ts.start ≤ ts.start := Nat.le_refl _
  rw [if_pos hle, hen]
  simp only [Bool.true_and, Bool.and_eq_false_iff, decide_eq_false_iff_not]
  rcases Nat.lt_or_ge now.toSec ts.start.toSec with h | h
  · exact Or.inl (Nat.not_le.mpr h)
  · exact Or.inr (Nat.not_lt.mpr h)

/-- A concrete degenerate entity (`start = end = 05:30:00`, enabled) used to
witness the degenerate-window theorem. -/
def degenerateTs : Timeslot :=
  { config := { id := some "d", name := none, enabled := none,
                start := none, «end» := none }
    editable := true
    name := none
    uniqueId := some "d"
    entityId := "timeslot.d"
    enabled := true
    start := ⟨5, 30, 0⟩
    «end» := ⟨5, 30, 0⟩ }

/-- Witness for the degenerate-window theorem at a concrete entity and
`now = 12:00:00`. -/
theorem is_on_degenerate_witness :
    degenerateTs.enabled = true ∧ degenerateTs.start = degenerateTs.«end» ∧
      degenerateTs.is_on ⟨12, 0, 0⟩ = false :=
  ⟨rfl, rfl, is_on_degenerate degenerateTs ⟨12, 0, 0⟩ rfl rfl⟩

/-- C4: `toggle()` sets `enabled` to the logical negation of its current
value, for every entity state; applying it twice restores `enabled`. -/
theorem toggle_negation (ts : Timeslot) :
    ts.toggle.enabled = !ts.enabled ∧ ts.toggle.toggle.enabled = ts.enabled :=
  ⟨rfl, by simp [Timeslot.toggle]⟩

/-- C8: `turn_on()` and `turn_off()` set only `enabled` (to true and false
respectively); `name`, `start`, `end`, the unique id and `editable` are
unchanged by either, for every entity state. -/
theorem turn_on_off_frame (ts : Timeslot) :
    ts.turn_on.enabled = true ∧ ts.turn_off.enabled = false ∧
    ts.turn_on.name = ts.name ∧ ts.turn_on.start = ts.start ∧
    ts.turn_on.«end» = ts.«end» ∧ ts.turn_on.uniqueId = ts.uniqueId ∧
    ts.turn_on.editable = ts.editable ∧
    ts.turn_off.name = ts.name ∧ ts.turn_off.start = ts.start ∧
    ts.turn_off.«end» = ts.«end» ∧ ts.turn_off.uniqueId = ts.uniqueId ∧
    ts.turn_off.editable = ts.editable :=
  ⟨rfl, rfl, rfl, rfl, rfl, rfl, rfl, rfl, rfl, rfl, rfl, rfl⟩

/-- C10: `turn_on()` and `turn_off()` are idempotent, and after them
`enabled` is true (resp. false) regardless of the prior state. -/
theorem turn_on_off_idempotent (ts : Timeslot) :
    ts.turn_on.turn_on = ts.turn_on ∧ ts.turn_off.turn_off = ts.turn_off ∧
    ts.turn_on.enabled = true ∧ ts.turn_off.enabled = false :=
  ⟨rfl, rfl, rfl, rfl⟩

/-- C6: `set_parameters` overwrites exactly the provided fields, leaves
absent fields unchanged, never touches the other attributes, and always
publishes exactly one state update — also with no arguments or unchanged
values. -/
theorem set_parameters_spec (ts : Timeslot) (nm : Option String)
    (en : Option Bool) (st et : Option Time) :
    (ts.async_set_parameters nm en st et).2
        = [(ts.async_set_parameters nm en st et).1] ∧
    (nm = none → (ts.async_set_parameters nm en st et).1.name = ts.name) ∧
    (∀ x, nm = some x → (ts.async_set_parameters nm en st et).1.name = some x) ∧
    (en = none → (ts.async_set_parameters nm en st et).1.enabled = ts.enabled) ∧
    (∀ b, en = some b → (ts.async_set_parameters nm en st et).1.enabled = b) ∧
    (st = none → (ts.async_set_parameters nm en st et).1.start = ts.start) ∧
    (∀ x, st = some x → (ts.async_set_parameters nm en st et).1.start = x) ∧
    (et = none → (ts.async_set_parameters nm en st et).1.«end» = ts.«end») ∧
    (∀ x, et = some x → (ts.async_set_parameters nm en st et).1.«end» = x) ∧
    (ts.async_set_parameters nm en st et).1.uniqueId = ts.uniqueId ∧
    (ts.async_set_parameters nm en st et).1.editable = ts.editable ∧
    (ts.async_set_parameters nm en st et).1.entityId = ts.entityId ∧
    (ts.async_set_parameters nm en st et).1.config = ts.config := by
  cases nm <;> cases en <;> cases st <;> cases et <;>
    simp [Timeslot.async_set_parameters]

/-- A concrete entity used by the `set_parameters` witness: enabled, with a
nontrivial window. -/
def sampleTs : Timeslot :=
  Timeslot.init
    { id := some "slot1", name := some "Slot one", enabled := some true,
      start := some ⟨8, 0, 0⟩, «end» := some ⟨17, 0, 0⟩ }

/-- Witness for the `set_parameters` theorem: `set_parameters(enabled=true)`
at a concrete entity publishes exactly one update and leaves `start`
unchanged. -/
theorem set_parameters_spec_witness :
    (sampleTs.async_set_parameters none (some true) none none).2
        = [(sampleTs.async_set_parameters none (some true) none none).1] ∧
    (sampleTs.async_set_parameters none (some true) none none).1.start
        = sampleTs.start ∧
    (sampleTs.async_set_parameters none (some true) none none).1.enabled
        = true := by
  obtain ⟨h1, _, _, _, h5, h6, _⟩ :=
    set_parameters_spec sampleTs none (some true) none none
  exact ⟨h1, h6 rfl, h5 true rfl⟩

/-- `(Except.ok a).bind f` computes to `f a`. -/
theorem exceptBind_ok {α β ε : Type} (a : α) (f : α → Except ε β) :
    (Except.ok a).bind f = f a := rfl

/-- `(Except.error e).bind f` computes to the same error. -/
theorem exceptBind_error {α β ε : Type} (e : ε) (f : α → Except ε β) :
    (Except.error e : Except ε α).bind f = Except.error e := rfl

/-- The value `enabled` must hold after a successful restore-merge: the
constructed value when the config specified `enabled`, otherwise the
snapshot's attribute. -/
def mergedEnabled (ts : Timeslot) (old : Snapshot) : Option Bool :=
  match ts.config.enabled with
  | some _ => some ts.enabled
  | none => old.enabled

/-- The value `start` must hold after a successful restore-merge. -/
def mergedStart (ts : Timeslot) (old : Snapshot) : Option Time :=
  match ts.config.start with
  | some _ => some ts.start
  | none =>
    match old.start with
    | some s => Time.fromisoformat s
    | none => none

/-- The value `end` must hold after a successful restore-merge. -/
def mergedEnd (ts : Timeslot) (old : Snapshot) : Option Time :=
  match ts.config.«end» with
  | some _ => some ts.«end»
  | none =>
    match old.«end» with
    | some s => Time.fromisoformat s
    | none => none

/-- A successful `restoreEnabled` step yields the merged `enabled` value and
changes no other field. -/
theorem restoreEnabled_ok (ts t : Timeslot) (old : Snapshot)
    (h : ts.restoreEnabled old = Except.ok t) :
    mergedEnabled ts old = some t.enabled ∧ t.start = ts.start ∧
    t.«end» = ts.«end» ∧ t.config = ts.config ∧ t.name = ts.name ∧
    t.uniqueId = ts.uniqueId ∧ t.editable = ts.editable ∧
    t.entityId = ts.entityId := by
  unfold Timeslot.restoreEnabled at h
  unfold mergedEnabled
  cases hce : ts.config.enabled with
  | some b =>
    rw [hce] at h
    injection h with h
    subst h
    exact ⟨rfl, rfl, rfl, rfl, rfl, rfl, rfl, rfl⟩
  | none =>
    rw [hce] at h
    cases hoe : old.enabled with
    | some b =>
      rw [hoe] at h
      injection h with h
      subst h
      exact ⟨rfl, rfl, rfl, rfl, rfl, rfl, rfl, rfl⟩
    | none =>
      rw [hoe] at h
      exact Except.noConfusion h

/-- A successful `restoreStart` step yields the merged `start` value and
changes no other field. -/
theorem restoreStart_ok (ts t : Timeslot) (old : Snapshot)
    (h : ts.restoreStart old = Except.ok t) :
    mergedStart ts old = some t.start ∧ t.enabled = ts.enabled ∧
    t.«end» = ts.«end» ∧ t.config = ts.config ∧ t.name = ts.name ∧
    t.uniqueId = ts.uniqueId ∧ t.editable = ts.editable ∧
    t.entityId = ts.entityId := by
  unfold Timeslot.restoreStart at h
  unfold mergedStart
  cases hcs : ts.config.start with
  | some x =>
    rw [hcs] at h
    injection h with h
    subst h
    exact ⟨rfl, rfl, rfl, rfl, rfl, rfl, rfl, rfl⟩
  | none =>
    simp only [hcs] at h
    cases hos : old.start with
    | some s =>
      simp only [hos] at h
      cases hp : Time.fromisoformat s with
      | some x =>
        simp only [hp] at h
        injection h with h
        subst h
        exact ⟨hp, rfl, rfl, rfl, rfl, rfl, rfl, rfl⟩
      | none =>
        simp only [hp] at h
        exact Except.noConfusion h
    | none =>
      simp only [hos] at h
      exact Except.noConfusion h

/-- A successful `restoreEnd` step yields the merged `end` value and changes
no other field. -/
theorem restoreEnd_ok (ts t : Timeslot) (old : Snapshot)
    (h : ts.restoreEnd old = Except.ok t) :
    mergedEnd ts old = some t.«end» ∧ t.enabled = ts.enabled ∧
    t.start = ts.start ∧ t.config = ts.config ∧ t.name = ts.name ∧
    t.uniqueId = ts.uniqueId ∧ t.editable = ts.editable ∧
    t.entityId = ts.entityId := by
  unfold Timeslot.restoreEnd at h
  unfold mergedEnd
  cases hcn : ts.config.«end» with
  | some x =>
    rw [hcn] at h
    injection h with h
    subst h
    exact ⟨rfl, rfl, rfl, rfl, rfl, rfl, rfl, rfl⟩
  | none =>
    simp only [hcn] at h
    cases hoe : old.«end» with
    | some s =>
      simp only [hoe] at h
      cases hp : Time.fromisoformat s with
      | some x =>
        simp only [hp] at h
        injection h with h
        subst h
        exact ⟨hp, rfl, rfl, rfl, rfl, rfl, rfl, rfl⟩
      | none =>
        simp only [hp] at h
        exact Except.noConfusion h
    | none =>
      simp only [hoe] at h
      exact Except.noConfusion h

/-- The merged `enabled` value only depends on the config, the current
`enabled` field and the snapshot. -/
theorem mergedEnabled_congr (a b : Timeslot) (old : Snapshot)
    (hc : a.config = b.config) (he : a.enabled = b.enabled) :
    mergedEnabled a old = mergedEnabled b old := by
  unfold mergedEnabled
  rw [hc, he]

/-- The merged `start` value only depends on the config, the current `start`
field and the snapshot. -/
theorem mergedStart_congr (a b : Timeslot) (old : Snapshot)
    (hc : a.config = b.config) (hs : a.start = b.start) :
    mergedStart a old = mergedStart b old := by
  unfold mergedStart
  rw [hc, hs]

/-- The merged `end` value only depends on the config, the current `end`
field and the snapshot. -/
theorem mergedEnd_congr (a b : Timeslot) (old : Snapshot)
    (hc : a.config = b.config) (hn : a.«end» = b.«end») :
    mergedEnd a old = mergedEnd b old := by
  unfold mergedEnd
  rw [hc, hn]

/-- A successful restore-merge against a snapshot forces each field to its
merged value and leaves the remaining fields intact. -/
theorem restore_ok_char (ts t : Timeslot) (old : Snapshot)
    (h : ts.async_added_to_hass (some old) = Except.ok t) :
    mergedEnabled ts old = some t.enabled ∧
    mergedStart ts old = some t.start ∧
    mergedEnd ts old = some t.«end» ∧
    t.config = ts.config ∧ t.name = ts.name ∧ t.uniqueId = ts.uniqueId ∧
    t.editable = ts.editable ∧ t.entityId = ts.entityId := by
  simp only [Timeslot.async_added_to_hass] at h
  cases h1 : ts.restoreEnabled old with
  | error e =>
    rw [h1, exceptBind_error] at h
    exact Except.noConfusion h
  | ok t1 =>
    rw [h1, exceptBind_ok] at h
    cases h2 : t1.restoreStart old with
    | error e =>
      rw [h2, exceptBind_error] at h
      exact Except.noConfusion h
    | ok t2 =>
      rw [h2, exceptBind_ok] at h
      obtain ⟨m1, fs1, fn1, fc1, fm1, fu1, fe1, fi1⟩ :=
        restoreEnabled_ok ts t1 old h1
      obtain ⟨m2, fb2, fn2, fc2, fm2, fu2, fe2, fi2⟩ :=
        restoreStart_ok t1 t2 old h2
      obtain ⟨m3, fb3, fs3, fc3, fm3, fu3, fe3, fi3⟩ :=
        restoreEnd_ok t2 t old h
      refine ⟨?_, ?_, ?_, ?_, ?_, ?_, ?_, ?_⟩
      · rw [m1, fb3, fb2]
      · rw [← mergedStart_congr t1 ts old fc1 fs1, m2, fs3]
      · rw [← mergedEnd_congr t2 ts old (fc2.trans fc1) (fn2.trans fn1), m3]
      · rw [fc3, fc2, fc1]
      · rw [fm3, fm2, fm1]
      · rw [fu3, fu2, fu1]
      · rw [fe3, fe2, fe1]
      · rw [fi3, fi2, fi1]

/-- If the merged `enabled` value exists, the `restoreEnabled` step succeeds
with exactly that value. -/
theorem restoreEnabled_of_merged (ts : Timeslot) (old : Snapshot) (b : Bool)
    (h : mergedEnabled ts old = some b) :
    ts.restoreEnabled old = Except.ok { ts with enabled := b } := by
  unfold mergedEnabled at h
  unfold Timeslot.restoreEnabled
  cases hce : ts.config.enabled with
  | some c =>
    simp only [hce] at h ⊢
    injection h with h
    subst h
    rfl
  | none =>
    simp only [hce] at h
    simp only [h]

/-- If the merged `start` value exists, the `restoreStart` step succeeds with
exactly that value. -/
theorem restoreStart_of_merged (ts : Timeslot) (old : Snapshot) (x : Time)
    (h : mergedStart ts old = some x) :
    ts.restoreStart old = Except.ok { ts with start := x } := by
  unfold mergedStart at h
  unfold Timeslot.restoreStart
  cases hcs : ts.config.start with
  | some c =>
    simp only [hcs] at h ⊢
    injection h with h
    subst h
    rfl
  | none =>
    simp only [hcs] at h
    cases hos : old.start with
    | some s =>
      simp only [hos] at h
      simp only [h]
    | none =>
      simp only [hos] at h
      exact Option.noConfusion h

/-- If the merged `end` value exists, the `restoreEnd` step succeeds with
exactly that value. -/
theorem restoreEnd_of_merged (ts : Timeslot) (old : Snapshot) (x : Time)
    (h : mergedEnd ts old = some x) :
    ts.restoreEnd old = Except.ok { ts with «end» := x } := by
  unfold mergedEnd at h
  unfold Timeslot.restoreEnd
  cases hcn : ts.config.«end» with
  | some c =>
    simp only [hcn] at h ⊢
    injection h with h
    subst h
    rfl
  | none =>
    simp only [hcn] at h
    cases hoe : old.«end» with
    | some s =>
      simp only [hoe] at h
      simp only [h]
    | none =>
      simp only [hoe] at h
      exact Option.noConfusion h

/-- When all three merged values exist, the restore-merge succeeds and the
result is the entity with exactly those field values. -/
theorem restore_ok_of_merged (ts : Timeslot) (old : Snapshot) (b : Bool)
    (s e : Time) (h1 : mergedEnabled ts old = some b)
    (h2 : mergedStart ts old = some s) (h3 : mergedEnd ts old = some e) :
    ts.async_added_to_hass (some old) =
      Except.ok { ts with enabled := b, start := s, «end» := e } := by
  have e1 := restoreEnabled_of_merged ts old b h1
  have h2' : mergedStart { ts with enabled := b } old = some s := h2
  have e2 := restoreStart_of_merged { ts with enabled := b } old s h2'
  have h3' : mergedEnd { ts with enabled := b, start := s } old = some e := h3
  have e3 := restoreEnd_of_merged { ts with enabled := b, start := s } old e h3'
  simp only [Timeslot.async_added_to_hass, e1, exceptBind_ok, e2, e3]

/-- C7: the restore-merge is idempotent: for every configuration, entity and
snapshot, if restoring once succeeds with result `t`, restoring again from
the same snapshot and configuration succeeds with the same `t`. -/
theorem restore_idempotent (ts t : Timeslot) (old_state : Option Snapshot)
    (h : ts.async_added_to_hass old_state = Except.ok t) :
    t.async_added_to_hass old_state = Except.ok t := by
  cases old_state with
  | none =>
    simp only [Timeslot.async_added_to_hass]
  | some old =>
    obtain ⟨m1, m2, m3, hc, _, _, _, _⟩ := restore_ok_char ts t old h
    have e1 : mergedEnabled t old = some t.enabled := by
      unfold mergedEnabled
      rw [hc]
      cases hce : ts.config.enabled with
      | some c => rfl
      | none =>
        unfold mergedEnabled at m1
        simp only [hce] at m1 ⊢
        exact m1
    have e2 : mergedStart t old = some t.start := by
      unfold mergedStart
      rw [hc]
      cases hcs : ts.config.start with
      | some c => rfl
      | none =>
        unfold mergedStart at m2
        simp only [hcs] at m2 ⊢
        exact m2
    have e3 : mergedEnd t old = some t.«end» := by
      unfold mergedEnd
      rw [hc]
      cases hcn : ts.config.«end» with
      | some c => rfl
      | none =>
        unfold mergedEnd at m3
        simp only [hcn] at m3 ⊢
        exact m3
    exact restore_ok_of_merged t old t.enabled t.start t.«end» e1 e2 e3

/-- C3: restore-merge precedence.  After a successful restore against a
snapshot: a field the configuration specified keeps its configured value; a
field it did not specify takes the snapshot's value (times parsed from their
text form); and with no snapshot every constructed field stands. -/
theorem restore_precedence (cfg : Config) (old : Snapshot) (t : Timeslot)
    (h : (Timeslot.init cfg).async_added_to_hass (some old) = Except.ok t) :
    (∀ b, cfg.enabled = some b → t.enabled = b) ∧
    (cfg.enabled = none → old.enabled = some t.enabled) ∧
    (∀ x, cfg.start = some x → t.start = x) ∧
    (cfg.start = none →
      ∃ s, old.start = some s ∧ Time.fromisoformat s = some t.start) ∧
    (∀ x, cfg.«end» = some x → t.«end» = x) ∧
    (cfg.«end» = none →
      ∃ s, old.«end» = some s ∧ Time.fromisoformat s = some t.«end») ∧
    (Timeslot.init cfg).async_added_to_hass none = Except.ok (Timeslot.init cfg) := by
  obtain ⟨m1, m2, m3, _, _, _, _, _⟩ := restore_ok_char (Timeslot.init cfg) t old h
  have m1' : (match cfg.enabled with
      | some _ => some (cfg.enabled.getD false)
      | none => old.enabled) = some t.enabled := m1
  have m2' : (match cfg.start with
      | some _ => some (cfg.start.getD Time.midnight)
      | none =>
        match old.start with
        | some s => Time.fromisoformat s
        | none => none) = some t.start := m2
  have m3' : (match cfg.«end» with
      | some _ => some (cfg.«end».getD Time.midnight)
      | none =>
        match old.«end» with
        | some s => Time.fromisoformat s
        | none => none) = some t.«end» := m3
  refine ⟨?_, ?_, ?_, ?_, ?_, ?_, rfl⟩
  · intro b hb
    simp only [hb, Option.getD_some] at m1'
    injection m1' with m1'
    exact m1'.symm
  · intro hb
    simp only [hb] at m1'
    exact m1'
  · intro x hx
    simp only [hx, Option.getD_some] at m2'
    injection m2' with m2'
    exact m2'.symm
  · intro hx
    simp only [hx] at m2'
    cases hos : old.start with
    | some s =>
      simp only [hos] at m2'
      exact ⟨s, rfl, m2'⟩
    | none =>
      simp only [hos] at m2'
      exact Option.noConfusion m2'
  · intro x hx
    simp only [hx, Option.getD_some] at m3'
    injection m3' with m3'
    exact m3'.symm
  · intro hx
    simp only [hx] at m3'
    cases hoe : old.«end» with
    | some s =>
      simp only [hoe] at m3'
      exact ⟨s, rfl, m3'⟩
    | none =>
      simp only [hoe] at m3'
      exact Option.noConfusion m3'

/-- A configuration that specifies `enabled=true` but no times, used by the
restore witnesses. -/
def cfgW : Config :=
  { id := some "w", name := none, enabled := some true,
    start := none, «end» := none }

/-- A snapshot carrying `enabled=false` and well-formed time texts, used by
the restore witnesses. -/
def snapW : Snapshot :=
  { enabled := some false, start := some "01:02:03", «end» := some "23:59:58" }

/-- The entity state after restoring `Timeslot.init cfgW` from `snapW`:
config precedence keeps `enabled=true`, the times come from the snapshot. -/
def tsW : Timeslot :=
  { config := cfgW
    editable := true
    name := none
    uniqueId := some "w"
    entityId := "timeslot.w"
    enabled := true
    start := ⟨1, 2, 3⟩
    «end» := ⟨23, 59, 58⟩ }

/-- Witness for the restore-precedence theorem at the concrete
configuration `cfgW` and snapshot `snapW`: config precedence keeps
`enabled=true` although the snapshot says false, and the times come parsed
from the snapshot. -/
theorem restore_precedence_witness :
    tsW.enabled = true ∧
    (∃ s, snapW.start = some s ∧ Time.fromisoformat s = some tsW.start) ∧
    (∃ s, snapW.«end» = some s ∧ Time.fromisoformat s = some tsW.«end») := by
  have h : (Timeslot.init cfgW).async_added_to_hass (some snapW)
      = Except.ok tsW := by rfl
  obtain ⟨p1, _, _, p4, _, p6, _⟩ := restore_precedence cfgW snapW tsW h
  exact ⟨p1 true rfl, p4 rfl, p6 rfl⟩

/-- Witness for the restore-idempotence theorem: restoring the concrete
already-restored state `tsW` again from `snapW` returns it unchanged. -/
theorem restore_idempotent_witness :
    tsW.async_added_to_hass (some snapW) = Except.ok tsW := by
  have h : (Timeslot.init cfgW).async_added_to_hass (some snapW)
      = Except.ok tsW := by rfl
  exact restore_idempotent (Timeslot.init cfgW) tsW (some snapW) h

/-- C9: the restore lookups are unguarded.  A successful restore requires the
snapshot to contain every attribute the configuration left unspecified, and
when such an attribute is missing the restore raises (errors) instead of
leaving the constructed default in place. -/
theorem restore_unguarded_lookups (ts : Timeslot) (old : Snapshot) :
    (∀ t, ts.async_added_to_hass (some old) = Except.ok t →
      (ts.config.enabled = none → old.enabled.isSome) ∧
      (ts.config.start = none → old.start.isSome) ∧
      (ts.config.«end» = none → old.«end».isSome)) ∧
    ((ts.config.enabled = none ∧ old.enabled = none) ∨
     (ts.config.start = none ∧ old.start = none) ∨
     (ts.config.«end» = none ∧ old.«end» = none) →
      ∃ e, ts.async_added_to_hass (some old) = Except.error e) := by
  constructor
  · intro t h
    obtain ⟨m1, m2, m3, _⟩ := restore_ok_char ts t old h
    refine ⟨?_, ?_, ?_⟩
    · intro hce
      unfold mergedEnabled at m1
      simp only [hce] at m1
      rw [m1]
      rfl
    · intro hcs
      unfold mergedStart at m2
      simp only [hcs] at m2
      cases hos : old.start with
      | some s => rfl
      | none =>
        simp only [hos] at m2
        exact Option.noConfusion m2
    · intro hcn
      unfold mergedEnd at m3
      simp only [hcn] at m3
      cases hoe : old.«end» with
      | some s => rfl
      | none =>
        simp only [hoe] at m3
        exact Option.noConfusion m3
  · intro hmiss
    cases hres : ts.async_added_to_hass (some old) with
    | ok t =>
      exfalso
      obtain ⟨m1, m2, m3, _⟩ := restore_ok_char ts t old hres
      rcases hmiss with ⟨h1, h2⟩ | ⟨h1, h2⟩ | ⟨h1, h2⟩
      · unfold mergedEnabled at m1
        simp only [h1, h2] at m1
        exact Option.noConfusion m1
      · unfold mergedStart at m2
        simp only [h1, h2] at m2
        exact Option.noConfusion m2
      · unfold mergedEnd at m3
        simp only [h1, h2] at m3
        exact Option.noConfusion m3
    | error e => exact ⟨e, rfl⟩

/-- A fully-unspecified configuration, used by the unguarded-lookup witness. -/
def cfgM : Config :=
  { id := some "m", name := none, enabled := none, start := none, «end» := none }

/-- A snapshot missing the `start` attribute, used by the unguarded-lookup
witness. -/
def snapM : Snapshot :=
  { enabled := some true, start := none, «end» := some "01:00:00" }

/-- Witness for the unguarded-lookup theorem: restoring a fully-unspecified
configuration from a snapshot that lacks `start` errors out. -/
theorem restore_unguarded_lookups_witness :
    ∃ e, (Timeslot.init cfgM).async_added_to_hass (some snapM)
      = Except.error e :=
  (restore_unguarded_lookups (Timeslot.init cfgM) snapM).2
    (Or.inr (Or.inl ⟨rfl, rfl⟩))

/-- An unspecified configuration, used for the malformed-snapshot evaluation. -/
def cfgB : Config :=
  { id := some "b", name := none, enabled := none, start := none, «end» := none }

/-- A snapshot whose `start` attribute text is not a valid time-of-day. -/
def snapB : Snapshot :=
  { enabled := some false, start := some "garbage!", «end» := some "01:00:00" }

/-- C5 (divergence): restoring from a snapshot with malformed time text makes
the restore step raise (the Python `ValueError` escapes
`async_added_to_hass`); the `start` field does not fall back to its default
`00:00:00`. -/
theorem restore_malformed_time_raises :
    (Timeslot.init cfgB).async_added_to_hass (some snapB)
      = Except.error "ValueError: invalid isoformat string" := rfl
